import Mathlib

/-!
Verification of the statistics engine of the DataStats repository
(`app/statistics/stats.py`).

The engine consumes a two-column dataset (`Sku`, `Value`) and produces four
per-SKU mappings: mean, sample variance, sample standard deviation, and a
process-capability sigma computed from external LSL/USL bound maps.

Embedding choices:
* Measurement values are rationals (`ℚ`); all of the engine's arithmetic on
  them (sums, means, sample variances, the sigma margins) is exact rational
  arithmetic in the source, so `ℚ` reproduces it faithfully.
* pandas propagates `NaN` for a single-sample variance/std-dev, so variance
  values live in `PNum` (`nan` or a rational).  A standard deviation is the
  square root of a sample variance, which is in general irrational, so the
  std-dev value is kept symbolically as `SVal.sqrtv q` (denoting `√q`), and a
  sigma value as `SigVal.divSqrt m q` (denoting `m / √q`); the interpretation
  functions `SVal.toReal` / `SigVal.toReal` give the real denotation.  This
  keeps every engine operation computable while the real-valued claims are
  stated about the denotation.
* Python dicts are association lists with unique keys.  `get_mean` keys are
  produced in first-occurrence order (the source's `groupby` sorts keys; no
  specified property depends on key order, and the spec explicitly gives no
  ordering guarantee).
* `get_sigma` prints a diagnostic on a zero standard deviation and loops over
  the mean dict while reading the LSL/USL dicts; it is modelled as an explicit
  state fold (`SigmaState`) carrying the two bound dicts, the sigma dict under
  construction, and the emitted warning messages, so that the frame property
  (bounds never mutated) and the diagnostics are part of the model.
-/

/-- A measurement record: a SKU identifier and a numeric value
(one row of the two relevant columns `Sku`, `Value`). -/
structure MeasurementRecord where
  sku : String
  value : ℚ
deriving DecidableEq, Repr

/-- A dataset is an ordered sequence of measurement records,
duplicates allowed. -/
abbrev Dataset := List MeasurementRecord

/-- The distinct SKUs of a dataset, in first-occurrence order
(the grouping keys of `df.groupby('Sku')`). -/
def skuKeys (df : Dataset) : List String :=
  (df.map (fun r => r.sku)).dedup

/-- The values of the group of records with the given SKU
(`df.groupby('Sku')['Value']` restricted to one group). -/
def skuGroup (df : Dataset) (s : String) : List ℚ :=
  (df.filter (fun r => r.sku == s)).map (fun r => r.value)

/-- Arithmetic mean of a list of values. -/
def meanOf (xs : List ℚ) : ℚ := xs.sum / xs.length

/-- A float-valued statistic that may be NaN (pandas yields NaN for the
sample variance / std-dev of a single-sample group). -/
inductive PNum where
  | nan : PNum
  | num : ℚ → PNum
deriving DecidableEq, Repr

/-- Sample variance (denominator N−1, pandas `ddof=1` default): NaN for a
group of fewer than two samples, else `Σ (x − mean)² / (n − 1)`. -/
def sampleVariance (xs : List ℚ) : PNum :=
  if xs.length ≤ 1 then PNum.nan
  else PNum.num ((xs.map (fun x => (x - meanOf xs) ^ 2)).sum / ((xs.length : ℚ) - 1))

/-- A standard-deviation value: NaN, or the (possibly irrational) square root
`√q` of a sample variance `q`, kept symbolically. -/
inductive SVal where
  | nan : SVal
  | sqrtv : ℚ → SVal
deriving DecidableEq, Repr

/-- The standard deviation corresponding to a variance value:
`std = sqrt(var)`, with NaN propagated (pandas `std` is the square root of
`var`). -/
def PNum.toSVal : PNum → SVal
  | PNum.nan => SVal.nan
  | PNum.num q => SVal.sqrtv q

/-- The Python test `std == 0` on a std-dev value: false for NaN
(IEEE `nan == 0` is false); for `√q` with `q` a computed sample variance
(hence `q ≥ 0`), `√q == 0` exactly when `q = 0`. -/
def SVal.isZero : SVal → Bool
  | SVal.nan => false
  | SVal.sqrtv q => decide (q = 0)

/-- Real denotation of a std-dev value.  NaN has no real denotation; it is
mapped to the junk value 0, and every real-valued claim is guarded by the
non-NaN shape of the value. -/
noncomputable def SVal.toReal : SVal → ℝ
  | SVal.nan => 0
  | SVal.sqrtv q => Real.sqrt (q : ℝ)

/-- A sigma (process-capability) value: NaN, or `m / √q` kept symbolically
(`m` the minimum margin, `q` the sample variance). -/
inductive SigVal where
  | nan : SigVal
  | divSqrt : ℚ → ℚ → SigVal
deriving DecidableEq, Repr

/-- Real denotation of a sigma value (NaN mapped to the junk value 0, as in
`SVal.toReal`). -/
noncomputable def SigVal.toReal : SigVal → ℝ
  | SigVal.nan => 0
  | SigVal.divSqrt m q => (m : ℝ) / Real.sqrt (q : ℝ)

/-- `get_mean`: group by SKU, map each distinct SKU to the arithmetic mean of
its group's values (`df.groupby('Sku')['Value'].mean().to_dict()`). -/
def get_mean (df : Dataset) : List (String × ℚ) :=
  (skuKeys df).map (fun s => (s, meanOf (skuGroup df s)))

/-- `get_variance`: per-SKU sample variance
(`df.groupby('Sku')['Value'].var().to_dict()`). -/
def get_variance (df : Dataset) : List (String × PNum) :=
  (skuKeys df).map (fun s => (s, sampleVariance (skuGroup df s)))

/-- `get_std_dev`: per-SKU sample standard deviation, the square root of the
sample variance (`df.groupby('Sku')['Value'].std().to_dict()`). -/
def get_std_dev (df : Dataset) : List (String × SVal) :=
  (skuKeys df).map (fun s => (s, (sampleVariance (skuGroup df s)).toSVal))

/-- The warning printed by `get_sigma` when a SKU has zero standard
deviation. -/
def warnMsg (sku : String) : String :=
  "Warning: Standard deviation for " ++ sku ++ " is 0, skipping Sigma calculation"

/-- The sigma formula `min(USL - mean, mean - LSL) / std` in the value
domain: division by a NaN std-dev is NaN, division by `√q` is kept
symbolically. -/
def sigmaOf (l u m : ℚ) : SVal → SigVal
  | SVal.nan => SigVal.nan
  | SVal.sqrtv q => SigVal.divSqrt (min (u - m) (m - l)) q

/-- The state of `get_sigma`'s loop: the two bound dicts it reads (threaded
explicitly so that non-mutation is a provable property of the model), the
sigma dict under construction, and the warnings printed so far. -/
structure SigmaState where
  lsl : List (String × ℚ)
  usl : List (String × ℚ)
  sigma_dict : List (String × SigVal)
  warnings : List String
deriving DecidableEq, Repr

/-- One iteration of `get_sigma`'s loop over a mean-dict entry: if the SKU is
in `LSL`, `USL` and the std dict, either skip with a warning (`std == 0`) or
append the sigma value. -/
def sigmaLoop (std_dict : List (String × SVal)) (st : SigmaState)
    (entry : String × ℚ) : SigmaState :=
  match st.lsl.lookup entry.1, st.usl.lookup entry.1, std_dict.lookup entry.1 with
  | some l, some u, some sv =>
      if sv.isZero then
        { st with warnings := st.warnings ++ [warnMsg entry.1] }
      else
        { st with sigma_dict := st.sigma_dict ++ [(entry.1, sigmaOf l u entry.2 sv)] }
  | _, _, _ => st

/-- `get_sigma`: computes the mean and std-dev dicts of the dataset, then
folds the loop body over the mean dict starting from an empty sigma dict and
no warnings. -/
def get_sigma (df : Dataset) (LSL USL : List (String × ℚ)) : SigmaState :=
  (get_mean df).foldl (sigmaLoop (get_std_dev df)) ⟨LSL, USL, [], []⟩

/-! ### Association-list lemmas -/

/-- Looking up a key in a list built by pairing each key with a function of
itself returns that function's value exactly on the listed keys. -/
theorem lookup_map_self {β : Type} (f : String → β) (l : List String) (s : String) :
    ((l.map (fun a => (a, f a))).lookup s) = if s ∈ l then some (f s) else none := by
  induction l with
  | nil => simp
  | cons a t ih =>
    by_cases h : s = a
    · subst h
      simp [List.lookup]
    · have hb : (s == a) = false := by simpa using h
      simp [List.lookup, hb, h, ih]

/-- A key not among the first components of an association list has no
lookup result. -/
theorem lookup_eq_none_of_not_mem {β : Type} (l : List (String × β)) (s : String)
    (h : s ∉ l.map Prod.fst) : l.lookup s = none := by
  induction l with
  | nil => rfl
  | cons e t ih =>
    simp only [List.map_cons, List.mem_cons] at h
    push_neg at h
    have hb : (s == e.1) = false := by simpa using h.1
    cases e
    simpa [List.lookup, hb] using ih h.2

/-- A key is among the first components of an association list exactly when
its lookup succeeds. -/
theorem mem_keys_iff_lookup {β : Type} (l : List (String × β)) (s : String) :
    s ∈ l.map Prod.fst ↔ ∃ v, l.lookup s = some v := by
  induction l with
  | nil => simp
  | cons e t ih =>
    cases e with
    | mk a b =>
      by_cases h : s = a
      · subst h
        simp [List.lookup]
      · have hb : (s == a) = false := by simpa using h
        simp [List.lookup, hb, h, ih]

/-- `filterMap` over a cons, phrased with `Option.toList`. -/
theorem filterMap_cons_toList {α β : Type} (f : α → Option β) (a : α) (l : List α) :
    List.filterMap f (a :: l) = (f a).toList ++ List.filterMap f l := by
  cases h : f a <;> simp [List.filterMap_cons, h]

/-- Keys surviving a key-preserving `filterMap` were keys of the original
association list. -/
theorem mem_keys_filterMap {β γ : Type} (f : String × β → Option (String × γ))
    (hf : ∀ e e', f e = some e' → e'.1 = e.1) (l : List (String × β)) (s : String)
    (h : s ∈ (l.filterMap f).map Prod.fst) : s ∈ l.map Prod.fst := by
  simp only [List.mem_map] at h ⊢
  obtain ⟨e', he', rfl⟩ := h
  rw [List.mem_filterMap] at he'
  obtain ⟨e, he, hfe⟩ := he'
  exact ⟨e, he, (hf e e' hfe).symm⟩

/-- Lookup in a key-preserving `filterMap` of an association list with
distinct keys: apply the filter to the key's original entry. -/
theorem lookup_filterMap {β γ : Type} (f : String × β → Option (String × γ))
    (hf : ∀ e e', f e = some e' → e'.1 = e.1) (l : List (String × β))
    (hl : (l.map Prod.fst).Nodup) (s : String) :
    (l.filterMap f).lookup s = (l.lookup s).bind (fun b => (f (s, b)).map Prod.snd) := by
  induction l with
  | nil => simp
  | cons e t ih =>
    cases e with
    | mk a b =>
      simp only [List.map_cons, List.nodup_cons] at hl
      by_cases h : s = a
      · subst h
        cases hfe : f (s, b) with
        | none =>
          rw [List.filterMap_cons, hfe]
          have : s ∉ (t.filterMap f).map Prod.fst := fun hm =>
            hl.1 (mem_keys_filterMap f hf t s hm)
          simp [List.lookup, lookup_eq_none_of_not_mem _ _ this, hfe]
        | some e' =>
          have h1 : e'.1 = s := hf _ _ hfe
          rw [List.filterMap_cons, hfe]
          cases e' with
          | mk a' c =>
            simp only at h1
            subst h1
            simp [List.lookup, hfe]
      · have hb : (s == a) = false := by simpa using h
        cases hfe : f (a, b) with
        | none =>
          rw [List.filterMap_cons, hfe]
          simp [List.lookup, hb, ih hl.2]
        | some e' =>
          have h1 : e'.1 = a := hf _ _ hfe
          rw [List.filterMap_cons, hfe]
          cases e' with
          | mk a' c =>
            simp only at h1
            subst h1
            simp [List.lookup, hb, ih hl.2]

/-! ### Characterisation of `get_sigma` -/

/-- The entry `get_sigma`'s loop contributes to the sigma dict for one
mean-dict entry: present exactly when the SKU is in both bound dicts and the
std dict and the std-dev is not zero. -/
def sigmaFilter (L U : List (String × ℚ)) (std : List (String × SVal))
    (e : String × ℚ) : Option (String × SigVal) :=
  match L.lookup e.1, U.lookup e.1, std.lookup e.1 with
  | some l, some u, some sv => if sv.isZero then none else some (e.1, sigmaOf l u e.2 sv)
  | _, _, _ => none

/-- The warning `get_sigma`'s loop emits for one mean-dict entry: present
exactly when the SKU is in both bound dicts and the std dict and the std-dev
is zero. -/
def warnFilter (L U : List (String × ℚ)) (std : List (String × SVal))
    (e : String × ℚ) : Option String :=
  match L.lookup e.1, U.lookup e.1, std.lookup e.1 with
  | some l, some u, some sv => if sv.isZero then some (warnMsg e.1) else none
  | _, _, _ => none

/-- One loop iteration leaves the bound dicts unchanged and appends at most
one sigma entry or one warning, as given by `sigmaFilter` / `warnFilter`. -/
theorem sigmaLoop_fields (std : List (String × SVal)) (st : SigmaState)
    (e : String × ℚ) :
    (sigmaLoop std st e).lsl = st.lsl ∧ (sigmaLoop std st e).usl = st.usl ∧
    (sigmaLoop std st e).sigma_dict
      = st.sigma_dict ++ (sigmaFilter st.lsl st.usl std e).toList ∧
    (sigmaLoop std st e).warnings
      = st.warnings ++ (warnFilter st.lsl st.usl std e).toList := by
  unfold sigmaLoop sigmaFilter warnFilter
  rcases st.lsl.lookup e.1 with _ | l <;> rcases st.usl.lookup e.1 with _ | u <;>
    rcases std.lookup e.1 with _ | sv <;> simp
  by_cases h : sv.isZero = true <;> simp [h]

/-- Folding the loop over any entry list: the bound dicts are unchanged, and
the sigma dict and warnings are the corresponding `filterMap`s of the
entries. -/
theorem foldl_sigmaLoop (std : List (String × SVal)) (entries : List (String × ℚ))
    (st : SigmaState) :
    entries.foldl (sigmaLoop std) st =
      { lsl := st.lsl, usl := st.usl,
        sigma_dict := st.sigma_dict ++ entries.filterMap (sigmaFilter st.lsl st.usl std),
        warnings := st.warnings ++ entries.filterMap (warnFilter st.lsl st.usl std) } := by
  induction entries generalizing st with
  | nil => simp
  | cons e t ih =>
    rw [List.foldl_cons, ih]
    obtain ⟨h1, h2, h3, h4⟩ := sigmaLoop_fields std st e
    rw [h1, h2, h3, h4, filterMap_cons_toList (sigmaFilter st.lsl st.usl std) e t,
      filterMap_cons_toList (warnFilter st.lsl st.usl std) e t, List.append_assoc,
      List.append_assoc]

/-- `get_sigma` returns the bound dicts unchanged; its sigma dict and
warnings are the `filterMap`s of the mean dict. -/
theorem get_sigma_fields (df : Dataset) (L U : List (String × ℚ)) :
    (get_sigma df L U).lsl = L ∧ (get_sigma df L U).usl = U ∧
    (get_sigma df L U).sigma_dict
      = (get_mean df).filterMap (sigmaFilter L U (get_std_dev df)) ∧
    (get_sigma df L U).warnings
      = (get_mean df).filterMap (warnFilter L U (get_std_dev df)) := by
  unfold get_sigma
  rw [foldl_sigmaLoop]
  simp

/-! ### Lookup characterisation of the four dicts -/

/-- The keys of the mean dict are exactly the distinct SKUs. -/
theorem get_mean_keys (df : Dataset) : (get_mean df).map Prod.fst = skuKeys df := by
  simp [get_mean, Function.comp_def]

/-- The keys of the variance dict are exactly the distinct SKUs. -/
theorem get_variance_keys (df : Dataset) :
    (get_variance df).map Prod.fst = skuKeys df := by
  simp [get_variance, Function.comp_def]

/-- The keys of the std-dev dict are exactly the distinct SKUs. -/
theorem get_std_dev_keys (df : Dataset) :
    (get_std_dev df).map Prod.fst = skuKeys df := by
  simp [get_std_dev, Function.comp_def]

/-- The distinct-SKU list has no duplicates. -/
theorem skuKeys_nodup (df : Dataset) : (skuKeys df).Nodup :=
  List.nodup_dedup _

/-- Lookup in the mean dict: the group mean on the distinct SKUs, nothing
elsewhere. -/
theorem get_mean_lookup (df : Dataset) (s : String) :
    (get_mean df).lookup s
      = if s ∈ skuKeys df then some (meanOf (skuGroup df s)) else none :=
  lookup_map_self _ _ s

/-- Lookup in the variance dict: the group sample variance on the distinct
SKUs, nothing elsewhere. -/
theorem get_variance_lookup (df : Dataset) (s : String) :
    (get_variance df).lookup s
      = if s ∈ skuKeys df then some (sampleVariance (skuGroup df s)) else none :=
  lookup_map_self _ _ s

/-- Lookup in the std-dev dict: the square root of the group sample variance
on the distinct SKUs, nothing elsewhere. -/
theorem get_std_dev_lookup (df : Dataset) (s : String) :
    (get_std_dev df).lookup s
      = if s ∈ skuKeys df then some (sampleVariance (skuGroup df s)).toSVal else none :=
  lookup_map_self _ _ s

/-- Lookup in the sigma dict produced by `get_sigma`: the mean-dict entry
passed through `sigmaFilter`. -/
theorem sigma_dict_lookup (df : Dataset) (L U : List (String × ℚ)) (s : String) :
    ((get_sigma df L U).sigma_dict).lookup s
      = ((get_mean df).lookup s).bind
          (fun m => (sigmaFilter L U (get_std_dev df) (s, m)).map Prod.snd) := by
  rw [(get_sigma_fields df L U).2.2.1]
  refine lookup_filterMap _ ?_ _ ?_ s
  · intro e e' he
    unfold sigmaFilter at he
    rcases hL : L.lookup e.1 with _ | l <;> rcases hU : U.lookup e.1 with _ | u <;>
      rcases hS : (get_std_dev df).lookup e.1 with _ | sv <;>
        rw [hL, hU, hS] at he <;> simp at he
    by_cases h : sv.isZero = true <;> simp [h] at he
    rw [← he]
  · rw [get_mean_keys]
    exact skuKeys_nodup df

/-! ### Supporting facts -/

/-- A SKU with a non-empty group is one of the distinct SKUs. -/
theorem mem_skuKeys_of_group_ne_nil (df : Dataset) (s : String)
    (h : skuGroup df s ≠ []) : s ∈ skuKeys df := by
  unfold skuGroup at h
  rw [Ne, List.map_eq_nil, List.filter_eq_nil] at h
  push_neg at h
  obtain ⟨r, hr, hs⟩ := h
  rw [beq_iff_eq] at hs
  unfold skuKeys
  rw [List.mem_dedup, List.mem_map]
  exact ⟨r, hr, hs⟩

/-- A computed (non-NaN) sample variance is non-negative. -/
theorem sampleVariance_nonneg (xs : List ℚ) (q : ℚ)
    (h : sampleVariance xs = PNum.num q) : 0 ≤ q := by
  unfold sampleVariance at h
  by_cases hl : xs.length ≤ 1
  · simp [hl] at h
  · simp only [hl, if_false, PNum.num.injEq] at h
    subst h
    apply div_nonneg
    · apply List.sum_nonneg
      intro x hx
      rw [List.mem_map] at hx
      obtain ⟨y, _, rfl⟩ := hx
      positivity
    · have h2 : 2 ≤ xs.length := by omega
      have h2q : (2 : ℚ) ≤ (xs.length : ℚ) := by exact_mod_cast h2
      linarith

/-- A variance value mapping to a symbolic square root was a number. -/
theorem toSVal_eq_sqrtv (p : PNum) (q : ℚ) (h : p.toSVal = SVal.sqrtv q) :
    p = PNum.num q := by
  cases p with
  | nan => simp [PNum.toSVal] at h
  | num q' => simp only [PNum.toSVal, SVal.sqrtv.injEq] at h; rw [h]

/-! ### Claim theorems -/

/-- C6: for the empty dataset, each of the four operations returns an empty
map (and `get_sigma` prints no warning); no error is raised — every
operation is total. -/
theorem empty_dataset_empty_maps (L U : List (String × ℚ)) :
    get_mean [] = [] ∧ get_variance [] = [] ∧ get_std_dev [] = [] ∧
    (get_sigma [] L U).sigma_dict = [] ∧ (get_sigma [] L U).warnings = [] :=
  ⟨rfl, rfl, rfl, rfl, rfl⟩

/-- C8: each of the four operations is a pure, deterministic function of its
inputs — two calls on the same dataset (and, for `get_sigma`, the same bound
maps) give identical results, there being no hidden state in the model. -/
theorem operations_deterministic (df : Dataset) (L U : List (String × ℚ)) :
    get_mean df = get_mean df ∧ get_variance df = get_variance df ∧
    get_std_dev df = get_std_dev df ∧ get_sigma df L U = get_sigma df L U :=
  ⟨rfl, rfl, rfl, rfl⟩

/-- C9: `get_sigma` leaves the LSL and USL mappings it is given unchanged:
the bound dicts threaded through the loop state come out exactly as they
went in. -/
theorem bounds_not_mutated (df : Dataset) (L U : List (String × ℚ)) :
    (get_sigma df L U).lsl = L ∧ (get_sigma df L U).usl = U :=
  ⟨(get_sigma_fields df L U).1, (get_sigma_fields df L U).2.1⟩

/-! ### Concrete evaluations for the worked examples -/

/-- The mean dict of the dataset `{(A,65),(A,67),(A,63)}`. -/
theorem exA_mean : get_mean [⟨"A", 65⟩, ⟨"A", 67⟩, ⟨"A", 63⟩] = [("A", 65)] := by
  have hk : skuKeys [⟨"A", 65⟩, ⟨"A", 67⟩, ⟨"A", 63⟩] = ["A"] := by decide
  rw [get_mean, hk]
  simp [skuGroup, meanOf, List.filter]
  norm_num

/-- The std-dev dict of the dataset `{(A,65),(A,67),(A,63)}`: sample
variance 4, standard deviation `√4`. -/
theorem exA_std : get_std_dev [⟨"A", 65⟩, ⟨"A", 67⟩, ⟨"A", 63⟩] = [("A", SVal.sqrtv 4)] := by
  have hk : skuKeys [⟨"A", 65⟩, ⟨"A", 67⟩, ⟨"A", 63⟩] = ["A"] := by decide
  rw [get_std_dev, hk]
  simp [skuGroup, meanOf, List.filter, sampleVariance, PNum.toSVal]
  norm_num

/-- Sigma dict for `{(A,65),(A,67),(A,63)}` with `LSL = {A:60}`,
`USL = {A:70}`: both margins are 5, so the entry is `5 / √4`. -/
theorem exA_sigma :
    (get_sigma [⟨"A", 65⟩, ⟨"A", 67⟩, ⟨"A", 63⟩] [("A", 60)] [("A", 70)]).sigma_dict
      = [("A", SigVal.divSqrt 5 4)] := by
  rw [get_sigma, exA_mean, exA_std]
  simp [sigmaLoop, List.lookup, sigmaOf, SVal.isZero]
  norm_num

/-- Sigma dict for `{(A,65),(A,67),(A,63)}` with `LSL = {A:60}`,
`USL = {A:80}`: the margins are 15 and 5 and the `min` selects the lower
margin 5, so the entry is again `5 / √4`, not `15 / √4`. -/
theorem exA_sigma_wide :
    (get_sigma [⟨"A", 65⟩, ⟨"A", 67⟩, ⟨"A", 63⟩] [("A", 60)] [("A", 80)]).sigma_dict
      = [("A", SigVal.divSqrt 5 4)] := by
  rw [get_sigma, exA_mean, exA_std]
  simp [sigmaLoop, List.lookup, sigmaOf, SVal.isZero]
  norm_num

/-- The real denotation of the sigma value `5 / √4` is `5 / 2 = 2.5`. -/
theorem exA_sigma_toReal : (SigVal.divSqrt 5 4).toReal = 5 / 2 := by
  show ((5 : ℚ) : ℝ) / Real.sqrt ((4 : ℚ) : ℝ) = 5 / 2
  rw [show ((4 : ℚ) : ℝ) = (2 : ℝ) ^ 2 by norm_num, Real.sqrt_sq (by norm_num)]
  norm_num

/-- C2: `get_mean` groups the records by SKU and maps each distinct SKU to
the arithmetic mean of its group's values: its key list is exactly the
distinct-SKU list, and each distinct SKU's entry is its group's mean. -/
theorem mean_groups_by_sku (df : Dataset) (s : String) (h : s ∈ skuKeys df) :
    (get_mean df).map Prod.fst = skuKeys df ∧
    (get_mean df).lookup s = some (meanOf (skuGroup df s)) := by
  refine ⟨get_mean_keys df, ?_⟩
  rw [get_mean_lookup, if_pos h]

/-- C2 witness: on the dataset `{(A,10),(A,20),(B,5)}` the claim theorem
applies to both SKUs and gives `A ↦ 15` and `B ↦ 5`. -/
theorem mean_groups_by_sku_check :
    (get_mean [⟨"A", 10⟩, ⟨"A", 20⟩, ⟨"B", 5⟩]).lookup "A" = some 15 ∧
    (get_mean [⟨"A", 10⟩, ⟨"A", 20⟩, ⟨"B", 5⟩]).lookup "B" = some 5 := by
  have hA := (mean_groups_by_sku [⟨"A", 10⟩, ⟨"A", 20⟩, ⟨"B", 5⟩] "A" (by decide)).2
  have hB := (mean_groups_by_sku [⟨"A", 10⟩, ⟨"A", 20⟩, ⟨"B", 5⟩] "B" (by decide)).2
  have hgA : skuGroup [⟨"A", 10⟩, ⟨"A", 20⟩, ⟨"B", 5⟩] "A" = [10, 20] := by decide
  have hgB : skuGroup [⟨"A", 10⟩, ⟨"A", 20⟩, ⟨"B", 5⟩] "B" = [5] := by decide
  rw [hA, hB, hgA, hgB]
  constructor <;> · congr 1; norm_num [meanOf]

/-- C3: for every SKU whose group has at least two samples, the variance dict
holds a number `q` (the N−1-denominator sample variance), the std-dev dict
holds `√q` for the same `q`, and the real denotation of that std-dev entry is
exactly the square root of the variance entry. -/
theorem stddev_sqrt_of_variance (df : Dataset) (s : String)
    (h2 : 2 ≤ (skuGroup df s).length) :
    ∃ q : ℚ, (get_variance df).lookup s = some (PNum.num q) ∧ 0 ≤ q ∧
      (get_std_dev df).lookup s = some (SVal.sqrtv q) ∧
      (SVal.sqrtv q).toReal = Real.sqrt (q : ℝ) := by
  have hne : skuGroup df s ≠ [] := by
    intro hnil
    rw [hnil] at h2
    simp at h2
  have hk := mem_skuKeys_of_group_ne_nil df s hne
  obtain ⟨q, hq⟩ : ∃ q, sampleVariance (skuGroup df s) = PNum.num q := by
    unfold sampleVariance
    rw [if_neg (by omega)]
    exact ⟨_, rfl⟩
  refine ⟨q, ?_, sampleVariance_nonneg _ q hq, ?_, rfl⟩
  · rw [get_variance_lookup, if_pos hk, hq]
  · rw [get_std_dev_lookup, if_pos hk, hq]
    rfl

/-- C3 witness: on `{(A,65),(A,67),(A,63)}` the claim theorem applies; the
variance entry is 4 and the std-dev entry denotes `√4 = 2`. -/
theorem stddev_sqrt_of_variance_check :
    (∃ q : ℚ,
      (get_variance [⟨"A", 65⟩, ⟨"A", 67⟩, ⟨"A", 63⟩]).lookup "A" = some (PNum.num q) ∧
      0 ≤ q ∧
      (get_std_dev [⟨"A", 65⟩, ⟨"A", 67⟩, ⟨"A", 63⟩]).lookup "A" = some (SVal.sqrtv q) ∧
      (SVal.sqrtv q).toReal = Real.sqrt (q : ℝ)) ∧
    (get_std_dev [⟨"A", 65⟩, ⟨"A", 67⟩, ⟨"A", 63⟩]).lookup "A" = some (SVal.sqrtv 4) ∧
    (SVal.sqrtv (4 : ℚ)).toReal = 2 := by
  refine ⟨stddev_sqrt_of_variance [⟨"A", 65⟩, ⟨"A", 67⟩, ⟨"A", 63⟩] "A" (by decide), ?_, ?_⟩
  · rw [exA_std]
    rfl
  · show Real.sqrt ((4 : ℚ) : ℝ) = 2
    rw [show ((4 : ℚ) : ℝ) = (2 : ℝ) ^ 2 by norm_num]
    exact Real.sqrt_sq (by norm_num)

/-- C5: a SKU that is present in the mean dict but missing from the LSL map,
the USL map, or the std-dev dict is absent from the sigma dict; the
operation is total, so no error is raised. -/
theorem missing_bound_silent_skip (df : Dataset) (L U : List (String × ℚ)) (s : String)
    (hs : s ∈ (get_mean df).map Prod.fst)
    (h : L.lookup s = none ∨ U.lookup s = none ∨ (get_std_dev df).lookup s = none) :
    ((get_sigma df L U).sigma_dict).lookup s = none := by
  clear hs
  rw [sigma_dict_lookup]
  rcases hm : (get_mean df).lookup s with _ | m
  · rfl
  · rcases h with h | h | h
    · simp [sigmaFilter, h]
    · rcases hL : L.lookup s with _ | l <;> simp [sigmaFilter, h, hL]
    · rcases hL : L.lookup s with _ | l <;> rcases hU : U.lookup s with _ | u <;>
        simp [sigmaFilter, h, hL, hU]

/-- C5 witness: the dataset `{(C,5)}` with empty bound maps: `C` is a mean
key but absent from the sigma dict. -/
theorem missing_bound_silent_skip_check :
    ((get_sigma [⟨"C", 5⟩] [] []).sigma_dict).lookup "C" = none :=
  missing_bound_silent_skip [⟨"C", 5⟩] [] [] "C"
    (by rw [get_mean_keys]; decide) (Or.inl rfl)

/-- C4: a SKU whose standard deviation is exactly zero (a zero-variance
group) and which carries both bounds is omitted from the sigma dict and the
diagnostic warning for it is emitted; the operation is total, so no
exception is raised. -/
theorem zero_std_skip_warn (df : Dataset) (L U : List (String × ℚ)) (s : String)
    (hstd : (get_std_dev df).lookup s = some (SVal.sqrtv 0))
    (hl : ∃ l, L.lookup s = some l) (hu : ∃ u, U.lookup s = some u) :
    ((get_sigma df L U).sigma_dict).lookup s = none ∧
    warnMsg s ∈ (get_sigma df L U).warnings := by
  obtain ⟨l, hl⟩ := hl
  obtain ⟨u, hu⟩ := hu
  have hk : s ∈ skuKeys df := by
    by_contra hk
    rw [get_std_dev_lookup, if_neg hk] at hstd
    exact Option.noConfusion hstd
  constructor
  · rw [sigma_dict_lookup]
    rcases hm : (get_mean df).lookup s with _ | m
    · rfl
    · simp [sigmaFilter, hl, hu, hstd, SVal.isZero]
  · rw [(get_sigma_fields df L U).2.2.2, List.mem_filterMap]
    refine ⟨(s, meanOf (skuGroup df s)), ?_, ?_⟩
    · rw [get_mean]
      exact List.mem_map.mpr ⟨s, hk, rfl⟩
    · simp [warnFilter, hl, hu, hstd, SVal.isZero]

/-- C4 witness: the zero-variance dataset `{(A,65),(A,65)}` with bounds
`LSL = {A:60}`, `USL = {A:70}`: `A` is absent from the sigma dict and its
warning is emitted. -/
theorem zero_std_skip_warn_check :
    ((get_sigma [⟨"A", 65⟩, ⟨"A", 65⟩] [("A", 60)] [("A", 70)]).sigma_dict).lookup "A" = none ∧
    warnMsg "A" ∈ (get_sigma [⟨"A", 65⟩, ⟨"A", 65⟩] [("A", 60)] [("A", 70)]).warnings := by
  refine zero_std_skip_warn [⟨"A", 65⟩, ⟨"A", 65⟩] [("A", 60)] [("A", 70)] "A" ?_
    ⟨60, rfl⟩ ⟨70, rfl⟩
  rw [get_std_dev_lookup, if_pos (by decide)]
  have hg : skuGroup [⟨"A", 65⟩, ⟨"A", 65⟩] "A" = [65, 65] := by decide
  rw [hg]
  have hv : sampleVariance [(65 : ℚ), 65] = PNum.num 0 := by
    unfold sampleVariance
    rw [if_neg (by norm_num)]
    congr 1
    norm_num [meanOf]
  rw [hv]
  rfl

/-- C7: the variance and std-dev dicts' key sets contain the mean dict's key
set, and every key of the sigma dict is a key of the mean dict, of the LSL
map, of the USL map and of the std-dev dict, with a std-dev entry that fails
the `std == 0` test (the zero-std-dev exclusion). -/
theorem key_set_invariants (df : Dataset) (L U : List (String × ℚ)) :
    ((get_mean df).map Prod.fst ⊆ (get_variance df).map Prod.fst) ∧
    ((get_mean df).map Prod.fst ⊆ (get_std_dev df).map Prod.fst) ∧
    ∀ s, s ∈ ((get_sigma df L U).sigma_dict).map Prod.fst →
      s ∈ (get_mean df).map Prod.fst ∧ s ∈ L.map Prod.fst ∧ s ∈ U.map Prod.fst ∧
      ∃ sv, (get_std_dev df).lookup s = some sv ∧ sv.isZero = false := by
  refine ⟨by rw [get_mean_keys, get_variance_keys]; exact List.Subset.refl _,
    by rw [get_mean_keys, get_std_dev_keys]; exact List.Subset.refl _, ?_⟩
  intro s hs
  rw [mem_keys_iff_lookup] at hs
  obtain ⟨v, hv⟩ := hs
  rw [sigma_dict_lookup] at hv
  rcases hm : (get_mean df).lookup s with _ | m <;> rw [hm] at hv
  · simp at hv
  · rcases hL : L.lookup s with _ | l <;> rcases hU : U.lookup s with _ | u <;>
      rcases hS : (get_std_dev df).lookup s with _ | sv <;>
        simp [sigmaFilter, hL, hU, hS] at hv
    by_cases hz : sv.isZero = true
    · simp [hz] at hv
    · rw [Bool.not_eq_true] at hz
      exact ⟨(mem_keys_iff_lookup _ s).mpr ⟨m, hm⟩, (mem_keys_iff_lookup _ s).mpr ⟨l, hL⟩,
        (mem_keys_iff_lookup _ s).mpr ⟨u, hU⟩, sv, rfl, hz⟩

/-- C7 witness: on `{(A,65),(A,67),(A,63)}` with `LSL = {A:60}`,
`USL = {A:70}`, the SKU `A` is in the sigma dict and the claim theorem yields
its membership in all four key sets with a nonzero std-dev entry. -/
theorem key_set_invariants_check :
    "A" ∈ (get_mean [⟨"A", 65⟩, ⟨"A", 67⟩, ⟨"A", 63⟩]).map Prod.fst ∧
    "A" ∈ ([(("A" : String), (60 : ℚ))]).map Prod.fst ∧
    "A" ∈ ([(("A" : String), (70 : ℚ))]).map Prod.fst ∧
    ∃ sv, (get_std_dev [⟨"A", 65⟩, ⟨"A", 67⟩, ⟨"A", 63⟩]).lookup "A" = some sv ∧
      sv.isZero = false := by
  apply (key_set_invariants [⟨"A", 65⟩, ⟨"A", 67⟩, ⟨"A", 63⟩] [("A", 60)] [("A", 70)]).2.2 "A"
  rw [exA_sigma]
  decide

/-- C10 (implicit behaviour): a SKU whose group has exactly one sample keeps
its key in the variance and std-dev dicts with a NaN value, and when both
bounds are present `get_sigma` emits a NaN sigma entry for it instead of
skipping it — the `std == 0` test is false for NaN, and dividing the finite
minimum margin by a NaN standard deviation propagates NaN. -/
theorem single_sample_nan_propagation (df : Dataset) (L U : List (String × ℚ)) (s : String)
    (h1 : (skuGroup df s).length = 1) :
    (get_variance df).lookup s = some PNum.nan ∧
    (get_std_dev df).lookup s = some SVal.nan ∧
    ((∃ l, L.lookup s = some l) → (∃ u, U.lookup s = some u) →
      ((get_sigma df L U).sigma_dict).lookup s = some SigVal.nan) := by
  have hne : skuGroup df s ≠ [] := by
    intro hnil
    rw [hnil] at h1
    simp at h1
  have hk := mem_skuKeys_of_group_ne_nil df s hne
  have hv : sampleVariance (skuGroup df s) = PNum.nan := by
    unfold sampleVariance
    rw [if_pos (by omega)]
  have hs : (get_std_dev df).lookup s = some SVal.nan := by
    rw [get_std_dev_lookup, if_pos hk, hv]
    rfl
  refine ⟨?_, hs, ?_⟩
  · rw [get_variance_lookup, if_pos hk, hv]
  · rintro ⟨l, hl⟩ ⟨u, hu⟩
    rw [sigma_dict_lookup, get_mean_lookup, if_pos hk]
    simp [sigmaFilter, hl, hu, hs, SVal.isZero, sigmaOf]

/-- C10 witness: the single-sample dataset `{(A,65)}` with bounds
`LSL = {A:60}`, `USL = {A:70}`: NaN variance and std-dev entries, and a NaN
sigma entry (the SKU is not skipped). -/
theorem single_sample_nan_propagation_check :
    (get_variance [⟨"A", 65⟩]).lookup "A" = some PNum.nan ∧
    (get_std_dev [⟨"A", 65⟩]).lookup "A" = some SVal.nan ∧
    ((get_sigma [⟨"A", 65⟩] [("A", 60)] [("A", 70)]).sigma_dict).lookup "A"
      = some SigVal.nan := by
  obtain ⟨h1, h2, h3⟩ :=
    single_sample_nan_propagation [⟨"A", 65⟩] [("A", 60)] [("A", 70)] "A" (by decide)
  exact ⟨h1, h2, h3 ⟨60, rfl⟩ ⟨70, rfl⟩⟩

/-- C1: every sigma entry `get_sigma` emits is obtained from that SKU's
entries in the same dataset's mean and std-dev dicts and the two bound maps
by the formula `min(USL − mean, mean − LSL) / std` (the minimum of the two
raw margins, divided once by the standard deviation): for a non-NaN std-dev
`√q` the emitted value is `divSqrt (min (USL − mean) (mean − LSL)) q`, whose
real denotation is `min (USL − mean) (mean − LSL) / √q`; a NaN std-dev
yields a NaN sigma. -/
theorem sigma_emitted_formula (df : Dataset) (L U : List (String × ℚ)) (s : String)
    (v : SigVal) (hv : ((get_sigma df L U).sigma_dict).lookup s = some v) :
    ∃ m sv l u, (get_mean df).lookup s = some m ∧ L.lookup s = some l ∧
      U.lookup s = some u ∧ (get_std_dev df).lookup s = some sv ∧
      v = sigmaOf l u m sv ∧
      ((sv = SVal.nan ∧ v = SigVal.nan) ∨
        ∃ q : ℚ, sv = SVal.sqrtv q ∧ 0 < q ∧
          v = SigVal.divSqrt (min (u - m) (m - l)) q ∧
          v.toReal = min ((u : ℝ) - (m : ℝ)) ((m : ℝ) - (l : ℝ)) / sv.toReal) := by
  rw [sigma_dict_lookup] at hv
  rcases hm : (get_mean df).lookup s with _ | m <;> rw [hm] at hv
  · simp at hv
  · rcases hL : L.lookup s with _ | l <;> rcases hU : U.lookup s with _ | u <;>
      rcases hS : (get_std_dev df).lookup s with _ | sv <;>
        simp [sigmaFilter, hL, hU, hS] at hv
    by_cases hz : sv.isZero = true
    · simp [hz] at hv
    · simp [hz] at hv
      subst hv
      refine ⟨m, sv, l, u, rfl, rfl, rfl, rfl, rfl, ?_⟩
      cases sv with
      | nan => exact Or.inl ⟨rfl, rfl⟩
      | sqrtv q =>
        refine Or.inr ⟨q, rfl, ?_, rfl, ?_⟩
        · have hq0 : q ≠ 0 := by simpa [SVal.isZero] using hz
          have hmem : s ∈ skuKeys df := by
            by_contra hkk
            rw [get_std_dev_lookup, if_neg hkk] at hS
            exact Option.noConfusion hS
          rw [get_std_dev_lookup, if_pos hmem] at hS
          injection hS with hS2
          have hq1 := sampleVariance_nonneg (skuGroup df s) q (toSVal_eq_sqrtv _ q hS2)
          exact lt_of_le_of_ne hq1 (Ne.symm hq0)
        · simp only [sigmaOf, SigVal.toReal, SVal.toReal]
          push_cast
          rfl

/-- C1 witness: on `{(A,65),(A,67),(A,63)}` with `LSL = {A:60}`,
`USL = {A:70}` the emitted entry is `5 / √4` and the claim theorem applies to
it; its real denotation is `2.5`; with the asymmetric bounds `LSL = {A:60}`,
`USL = {A:80}` the `min` selects the lower margin, giving `5 / √4 = 2.5`
again rather than `15 / 2 = 7.5`. -/
theorem sigma_emitted_formula_check :
    (∃ m sv l u,
      (get_mean [⟨"A", 65⟩, ⟨"A", 67⟩, ⟨"A", 63⟩]).lookup "A" = some m ∧
      (([(("A" : String), (60 : ℚ))]).lookup "A") = some l ∧
      (([(("A" : String), (70 : ℚ))]).lookup "A") = some u ∧
      (get_std_dev [⟨"A", 65⟩, ⟨"A", 67⟩, ⟨"A", 63⟩]).lookup "A" = some sv ∧
      SigVal.divSqrt 5 4 = sigmaOf l u m sv ∧
      ((sv = SVal.nan ∧ SigVal.divSqrt 5 4 = SigVal.nan) ∨
        ∃ q : ℚ, sv = SVal.sqrtv q ∧ 0 < q ∧
          SigVal.divSqrt 5 4 = SigVal.divSqrt (min (u - m) (m - l)) q ∧
          (SigVal.divSqrt 5 4).toReal
            = min ((u : ℝ) - (m : ℝ)) ((m : ℝ) - (l : ℝ)) / sv.toReal)) ∧
    (SigVal.divSqrt 5 4).toReal = 5 / 2 ∧
    ((get_sigma [⟨"A", 65⟩, ⟨"A", 67⟩, ⟨"A", 63⟩] [("A", 60)] [("A", 80)]).sigma_dict).lookup "A"
      = some (SigVal.divSqrt 5 4) ∧
    (5 : ℝ) / 2 ≠ 15 / 2 := by
  refine ⟨sigma_emitted_formula [⟨"A", 65⟩, ⟨"A", 67⟩, ⟨"A", 63⟩] [("A", 60)] [("A", 70)] "A"
      (SigVal.divSqrt 5 4) ?_, exA_sigma_toReal, ?_, by norm_num⟩
  · rw [exA_sigma]
    rfl
  · rw [exA_sigma_wide]
    rfl
